import Mathlib

/-!
Verification of the phoenix world-container parser (`source/world.cc`).

The core under verification is `determine_world_version` (the Version
Resolver) and `world::parse` (the World Assembler).  The collaborators that
are not part of this translation unit — the byte cursor (`buffer`), the
chunk-archive reader (`archive_reader`), and the four sub-decoders
(`bsp_tree::parse`, `mesh::parse`, `way_net::parse`, `parse_vob_tree`) — are
modelled from their documented contracts: the byte cursor concretely (a byte
list with a read position, every read failing past the end), the archive
reader as a structured list of sections with per-section oracles for the
archive-level operations the dispatch performs, and the sub-decoders as
arbitrary fallible functions.
-/

namespace Phoenix

/-- Modelled from the spec: the Byte Cursor's out-of-bounds error
(`buffer_error` in the C++ sources): reads past the end fail with it. -/
inductive buffer_error where
  | underflow
deriving Repr, DecidableEq

/-- Modelled from the spec: the Byte Cursor — a position-tracking view over
an immutable byte region, supporting fixed-width little-endian reads,
forward skips, open-ended slices and independent duplicates. -/
structure buffer where
  data : List Nat
  pos : Nat
deriving Repr, DecidableEq

namespace buffer

/-- Bytes left between the read position and the end of the region. -/
def remaining (b : buffer) : Nat := b.data.length - b.pos

/-- The byte stored at absolute index `i` (0 outside the region; reads
guard the bounds themselves before using it). -/
def byte_at (b : buffer) (i : Nat) : Nat := b.data.getD i 0

/-- Modelled from the spec: 16-bit little-endian read (`get_ushort`).
Fails with an out-of-bounds error past the end. -/
def get_ushort (b : buffer) : Except buffer_error (Nat × buffer) :=
  if b.pos + 2 ≤ b.data.length then
    .ok (b.byte_at b.pos + 256 * b.byte_at (b.pos + 1), { b with pos := b.pos + 2 })
  else
    .error .underflow

/-- Modelled from the spec: 32-bit little-endian read (`get_uint`).
Fails with an out-of-bounds error past the end. -/
def get_uint (b : buffer) : Except buffer_error (Nat × buffer) :=
  if b.pos + 4 ≤ b.data.length then
    .ok (b.byte_at b.pos + 256 * b.byte_at (b.pos + 1) +
           65536 * b.byte_at (b.pos + 2) + 16777216 * b.byte_at (b.pos + 3),
         { b with pos := b.pos + 4 })
  else
    .error .underflow

/-- Modelled from the spec: forward skip of `n` bytes; running past the end
is an out-of-bounds error. -/
def skip (b : buffer) (n : Nat) : Except buffer_error buffer :=
  if b.pos + n ≤ b.data.length then .ok { b with pos := b.pos + n }
  else .error .underflow

/-- Modelled from the spec: `slice()` — an open-ended read-only view of the
bytes from the current position, with its own cursor starting at 0. -/
def slice (b : buffer) : buffer := { data := b.data.drop b.pos, pos := 0 }

/-- Modelled from the spec: `duplicate()` — an independent cursor over the
same bytes at the same position.  In this pure embedding a buffer is a
value, so the duplicate is the value itself. -/
def duplicate (b : buffer) : buffer := b

end buffer

/-- Little-endian encoding of a 16-bit value into two bytes. -/
def u16le (n : Nat) : List Nat := [n % 256, n / 256 % 256]

/-- Little-endian encoding of a 32-bit value into four bytes. -/
def u32le (n : Nat) : List Nat :=
  [n % 256, n / 256 % 256, n / 65536 % 256, n / 16777216 % 256]

/-- The two serialization generations of the world format
(`game_version` in `phoenix.hh`). -/
inductive game_version where
  | gothic_1
  | gothic_2
deriving Repr, DecidableEq

/-- The header the archive reader exposes at each object boundary
(`archive_object`): name, declared type, version and index. -/
structure archive_object where
  object_name : String
  class_name : String
  version : Nat
  index : Nat
deriving Repr, DecidableEq

/-- The spatial partition tree produced by the external BSP decoder; only
its `leaf_polygons` side output is consumed by this core (it is handed to
the mesh decoder), so the rest of the tree is abstract. -/
structure bsp_tree where
  leaf_polygons : List Nat
  node_data : Nat
deriving Repr, DecidableEq

/-- The mesh entity produced by the external mesh decoder (abstract). -/
structure mesh where
  mesh_id : Nat
deriving Repr, DecidableEq

/-- The way-net entity produced by the external way-net decoder (abstract). -/
structure way_net where
  net_id : Nat
deriving Repr, DecidableEq

/-- A decoded VOB subtree root produced by the external VOB decoder
(abstract; the assembler only appends completed subtrees). -/
structure vob where
  vob_id : Nat
deriving Repr, DecidableEq

/-- Diagnostics emitted through the logging macros (`PX_LOGI`, `PX_LOGW`,
`PX_LOGE`), modelled as an explicit event list so recoverable conditions
are observable. -/
inductive log_entry where
  | logi (msg : String)
  | logw (msg : String)
  | loge (msg : String)
deriving Repr, DecidableEq

/-- The `parser_error` exception: either constructed from a subsystem tag
and a message, or wrapping a lower-level cause with a subsystem tag and a
message (as in `parser_error {"world", exc, "eof reached"}`). -/
inductive parser_error where
  | plain (system : String) (message : String)
  | wrap (system : String) (cause : buffer_error) (message : String)
deriving Repr, DecidableEq

/-- The exceptions in flight during parsing: a `parser_error`, a cursor
`buffer_error`, or the `std::length_error` thrown by the vector `reserve`
call in the VobTree branch.  The top-level handler intercepts only
`buffer_error`; the other two escape as they are. -/
inductive phoenix_error where
  | parser (e : parser_error)
  | buf (e : buffer_error)
  | length_error
deriving Repr, DecidableEq

/-- Modelled from the spec: one child object of the root as the Chunk
Archive Reader presents it — its header, the raw byte-cursor view at the
position where its payload starts (the shared cursor the section-specific
raw reads use), and per-section oracles for the archive-level operations
the dispatch may perform on the reader: the value `read_int` yields, the
result of the `i`-th `parse_vob_tree` invocation (threaded with the
resolved generation), the result of `way_net::parse`, and whether
`read_object_end` reports the object fully consumed after dispatch. -/
structure section_data where
  header : archive_object
  payload : buffer
  read_int_val : Int
  vob_decoder : game_version → Nat → Except buffer_error (Option vob)
  way_net_result : Except buffer_error way_net
  fully_parsed : Bool

/-- Modelled from the spec: a parsed archive as the reader presents it —
the root object's header and the sequence of its child sections. -/
structure world_archive where
  root : archive_object
  sections : List section_data

/-- Modelled from the spec: duplicating the region gives an independent
cursor over the same bytes; the derived archive view is the same value. -/
def world_archive.duplicate (arc : world_archive) : world_archive := arc

/-- The external decoders that consume the raw byte cursor directly:
`bsp_tree::parse` (cursor and generation tag) and `mesh::parse` (byte
region and leaf-polygon list).  Both may fail with a cursor out-of-bounds
error, which the assembler's top level intercepts. -/
structure externals where
  bsp_tree_parse : buffer → Nat → Except buffer_error bsp_tree
  mesh_parse : buffer → List Nat → Except buffer_error mesh

/-- Gothic 1 BSP magic (`BSP_VERSION_G1`, marked maybe-unused in the
source). -/
def BSP_VERSION_G1 : Nat := 0x2090000

/-- Gothic 2 BSP magic (`BSP_VERSION_G2`). -/
def BSP_VERSION_G2 : Nat := 0x4090000

/-- The scan loop of `determine_world_version`: walk the root's children in
order; at the first section named "MeshAndBsp" read a 32-bit value from the
raw cursor and compare it with the Gen2 magic; skip every other section;
if the archive is exhausted, log and default to Gothic 1. -/
def determine_go : List section_data → Except buffer_error game_version × List log_entry
  | [] =>
    (.ok .gothic_1,
     [.loge "world: failed to determine world version. Assuming Gothic 1."])
  | sec :: rest =>
    if sec.header.object_name = "MeshAndBsp" then
      match sec.payload.get_uint with
      | .ok (bsp_version, _) =>
        if bsp_version = BSP_VERSION_G2 then (.ok .gothic_2, [])
        else (.ok .gothic_1, [])
      | .error e => (.error e, [])
    else
      determine_go rest

/-- `determine_world_version`: the Version Resolver. -/
def determine_world_version (arc : world_archive) :
    Except buffer_error game_version × List log_entry :=
  determine_go arc.sections

/-- The pre-tree filler-chunk skip loop of the MeshAndBsp branch, with
explicit fuel standing in for the unbounded do-while: read a 16-bit tag,
read a 32-bit length, skip that many bytes; stop once the tag is 0xB060.
Each iteration consumes at least 6 bytes, so `remaining + 1` fuel is never
exhausted (`skip_chunks_fuel_congr` below). -/
def skip_chunks_fuel : Nat → buffer → Except buffer_error buffer
  | 0, _ => .error .underflow
  | fuel + 1, b =>
    match b.get_ushort with
    | .error e => .error e
    | .ok (chunk_type, b1) =>
      match b1.get_uint with
      | .error e => .error e
      | .ok (len, b2) =>
        match b2.skip len with
        | .error e => .error e
        | .ok b3 =>
          if chunk_type = 0xB060 then .ok b3 else skip_chunks_fuel fuel b3

/-- The filler-chunk skip loop of `world::parse`'s MeshAndBsp branch. -/
def skip_chunks (b : buffer) : Except buffer_error buffer :=
  skip_chunks_fuel (b.remaining + 1) b

/-- The implicit conversion of the signed 32-bit `count` to the 64-bit
unsigned `size_type` parameter of `std::vector::reserve`: reduction modulo
2^64, so a negative count becomes a number close to 2^64. -/
def size_t_of_int32 (n : Int) : Nat := (n % (2 ^ 64)).toNat

/-- Modelled from the C++ standard library: `max_size()` of the VOB vector
(8-byte owning pointers).  Its exact value is implementation-defined, but
every conforming value admits all nonnegative 32-bit counts and rejects
every converted negative 32-bit count, so this constant — the allocation
bound SIZE_MAX divided by the element size — gives the same `reserve`
verdict as any real implementation on all counts reachable from
`read_int`. -/
def VECTOR_MAX_SIZE : Nat := (2 ^ 64 - 1) / 8

/-- Modelled from the C++ standard library: `std::vector::reserve(n)`
throws `std::length_error` when `n` exceeds `max_size()`; otherwise it
only adjusts capacity and leaves the contents untouched. -/
def vector_reserve (n : Nat) : Except phoenix_error Unit :=
  if n ≤ VECTOR_MAX_SIZE then .ok () else .error .length_error

/-- The VobTree counting loop: `for (int32_t i = 0; i < count; ++i)` with
`parse_vob_tree` invoked once per iteration; a null child is skipped,
otherwise it is appended in archive order. -/
def vob_go (dec : Nat → Except buffer_error (Option vob)) :
    Nat → Nat → Except buffer_error (List vob)
  | _, 0 => .ok []
  | i, n + 1 =>
    match dec i with
    | .error e => .error e
    | .ok none => vob_go dec (i + 1) n
    | .ok (some child) =>
      match vob_go dec (i + 1) n with
      | .error e => .error e
      | .ok rest => .ok (child :: rest)

/-- The assembled world: spatial tree and mesh (set jointly by the
MeshAndBsp branch), the VOB forest, and the way-net. -/
structure world where
  world_bsp_tree : Option bsp_tree
  world_mesh : Option mesh
  world_vobs : List vob
  world_way_net : Option way_net
deriving Repr, DecidableEq

/-- The default-constructed `world wld;` at the top of `world::parse`. -/
def world.empty : world :=
  { world_bsp_tree := none, world_mesh := none, world_vobs := [], world_way_net := none }

/-- The four header fields as formatted into the parse diagnostics. -/
def header_string (h : archive_object) : String :=
  h.object_name ++ " " ++ h.class_name ++ " " ++ toString h.version ++ " " ++ toString h.index

/-- The section dispatch of `world::parse`'s loop body: by object name,
either the MeshAndBsp raw protocol (generation tag, declared size,
open-ended mesh slice, filler-chunk skip loop, BSP decoder, mesh decoder),
the VobTree branch (count read, the vector `reserve(count)` call with its
possible `length_error`, then the counting loop), the WayNet decoder, or
nothing.  Cursor errors are raised as `.buf`. -/
def dispatch_section (ext : externals) (version : game_version) (wld : world)
    (sec : section_data) : Except phoenix_error world :=
  if sec.header.object_name = "MeshAndBsp" then
    match sec.payload.get_uint with
    | .error e => .error (.buf e)
    | .ok (bsp_version, b1) =>
      match b1.get_uint with
      | .error e => .error (.buf e)
      | .ok (_, b2) =>
        let mesh_data := b2.slice
        match skip_chunks b2 with
        | .error e => .error (.buf e)
        | .ok b3 =>
          match ext.bsp_tree_parse b3 bsp_version with
          | .error e => .error (.buf e)
          | .ok tree =>
            match ext.mesh_parse mesh_data tree.leaf_polygons with
            | .error e => .error (.buf e)
            | .ok m => .ok { wld with world_bsp_tree := some tree, world_mesh := some m }
  else if sec.header.object_name = "VobTree" then
    match vector_reserve (size_t_of_int32 sec.read_int_val) with
    | .error e => .error e
    | .ok _ =>
      match vob_go (sec.vob_decoder version) 0 sec.read_int_val.toNat with
      | .error e => .error (.buf e)
      | .ok children => .ok { wld with world_vobs := wld.world_vobs ++ children }
  else if sec.header.object_name = "WayNet" then
    match sec.way_net_result with
    | .error e => .error (.buf e)
    | .ok wn => .ok { wld with world_way_net := some wn }
  else
    .ok wld

/-- One iteration of `world::parse`'s section loop: log the header, run the
dispatch, and if the reader reports unread bytes remaining afterwards, log
the recoverable diagnostic and discard the remainder (the recursive
`skip_object(true)`, which leaves the assembled value untouched). -/
def process_section (ext : externals) (version : game_version) (wld : world)
    (sec : section_data) : Except phoenix_error world × List log_entry :=
  let info := log_entry.logi ("world: parsing object [" ++ header_string sec.header ++ "]")
  match dispatch_section ext version wld sec with
  | .error e => (.error e, [info])
  | .ok w =>
    if sec.fully_parsed then (.ok w, [info])
    else
      (.ok w,
       [info, .logw ("world: object [" ++ header_string sec.header ++ "] not fully parsed")])

/-- The section loop of `world::parse`: process the root's children in
order, threading the assembled world and accumulating diagnostics; a
cursor error aborts the loop. -/
def process_sections (ext : externals) (version : game_version) :
    world → List section_data → Except phoenix_error world × List log_entry
  | wld, [] => (.ok wld, [])
  | wld, sec :: rest =>
    match process_section ext version wld sec with
    | (.error e, log) => (.error e, log)
    | (.ok w, log) =>
      let (r, log2) := process_sections ext version w rest
      (r, log ++ log2)

/-- `world::parse(buffer&, game_version)`: check the root's declared type,
run the section loop, and re-raise any cursor out-of-bounds error as a
single `parser_error` tagged "world" / "eof reached".  The handler is
`catch (const buffer_error&)`: any other exception — such as the
`length_error` from the VobTree `reserve` call — escapes unchanged. -/
def world.parse_with (ext : externals) (arc : world_archive) (version : game_version) :
    Except phoenix_error world × List log_entry :=
  if arc.root.class_name = "oCWorld:zCWorld" then
    match process_sections ext version world.empty arc.sections with
    | (.ok w, log) => (.ok w, log)
    | (.error (.buf e), log) => (.error (.parser (.wrap "world" e "eof reached")), log)
    | (.error e, log) => (.error e, log)
  else
    (.error (.parser (.plain "world"
       ("'oCWorld:zCWorld' chunk expected, got '" ++ arc.root.class_name ++ "'"))), [])

/-- `world::parse(buffer&)`: resolve the generation on an independent
duplicate of the region, then run the assembler on the original region.
A cursor error escaping the resolver has no handler there and propagates
raw. -/
def world.parse (ext : externals) (arc : world_archive) :
    Except phoenix_error world × List log_entry :=
  match determine_world_version arc.duplicate with
  | (.ok version, log) =>
    let (r, log2) := world.parse_with ext arc version
    (r, log ++ log2)
  | (.error e, log) => (.error (.buf e), log)

/-- The wire layout of one pre-tree filler chunk: a 16-bit tag, a 32-bit
little-endian byte length, then that many payload bytes. -/
def encode_chunk (tag : Nat) (payload : List Nat) : List Nat :=
  u16le tag ++ (u32le payload.length ++ payload)

/-- The wire layout of a sequence of filler chunks. -/
def encode_chunks : List (Nat × List Nat) → List Nat
  | [] => []
  | c :: cs => encode_chunk c.1 c.2 ++ encode_chunks cs

/-- A VOB decoder oracle that always yields no node. -/
def dummy_vob_decoder : game_version → Nat → Except buffer_error (Option vob) :=
  fun _ _ => .ok none

/-- Fixture: a section with the given header name, declared type and raw
payload, with inert archive-level oracles. -/
def mk_section (name cls : String) (payload : buffer) : section_data :=
  { header := { object_name := name, class_name := cls, version := 0, index := 0 }
    payload := payload
    read_int_val := 0
    vob_decoder := dummy_vob_decoder
    way_net_result := .ok { net_id := 0 }
    fully_parsed := true }

/-- Fixture: a root object with the expected world-container type. -/
def root_ok : archive_object :=
  { object_name := "", class_name := "oCWorld:zCWorld", version := 0, index := 0 }

/-- Fixture: a root object with a wrong declared type. -/
def root_bad : archive_object :=
  { object_name := "", class_name := "oCWorld:zCWorldFoo", version := 0, index := 0 }

/-- Fixture: concrete external decoders used to instantiate theorems with
hypotheses on the decoder oracles. -/
def ext0 : externals :=
  { bsp_tree_parse := fun b v => .ok { leaf_polygons := [7], node_data := v + b.pos }
    mesh_parse := fun b polys => .ok { mesh_id := b.data.length + polys.length } }

/-- Fixture: an archive whose first MeshAndBsp section starts at the very
end of the byte region, so the generation-tag read runs out of bounds. -/
def arc_trunc_mesh : world_archive :=
  { root := root_ok, sections := [mk_section "MeshAndBsp" "" { data := [], pos := 0 }] }

/-- Fixture: an unrecognized section with a few payload bytes. -/
def sec_foo : section_data := mk_section "Foo" "zFoo" { data := [1, 2, 3], pos := 0 }

/-- Fixture: a MeshAndBsp section whose payload starts with the Gen2 magic. -/
def sec_mesh_g2 : section_data :=
  mk_section "MeshAndBsp" "" { data := u32le 0x4090000, pos := 0 }

/-- Fixture: an archive with a filler section followed by a Gen2 geometry
section. -/
def arc_g2 : world_archive := { root := root_ok, sections := [sec_foo, sec_mesh_g2] }

/-- Fixture: an archive without any MeshAndBsp section. -/
def arc_no_mesh : world_archive := { root := root_ok, sections := [sec_foo] }

/-- Fixture: an archive whose root declares a wrong container type. -/
def arc_bad_root : world_archive := { root := root_bad, sections := [sec_foo] }

/-- Fixture: an archive with a matching root and no sections. -/
def arc_empty : world_archive := { root := root_ok, sections := [] }

/-- Fixture: a VobTree section declaring a negative count. -/
def sec_vob_neg : section_data :=
  { mk_section "VobTree" "" { data := [], pos := 0 } with read_int_val := -5 }

/-- Fixture: a VOB decoder oracle yielding a node on every index but 1. -/
def vd3 : game_version → Nat → Except buffer_error (Option vob) :=
  fun _ i => if i = 1 then .ok none else .ok (some { vob_id := i })

/-- Fixture: the pure result pattern matching `vd3`. -/
def r3 : Nat → Option vob := fun i => if i = 1 then none else some { vob_id := i }

/-- Fixture: a VobTree section declaring three children decoded by `vd3`. -/
def sec_vob3 : section_data :=
  { mk_section "VobTree" "" { data := [], pos := 0 } with
      read_int_val := 3, vob_decoder := vd3 }

/-- Fixture: an unrecognized section reported as not fully parsed. -/
def sec_unknown : section_data :=
  { mk_section "Cameras" "" { data := [], pos := 0 } with fully_parsed := false }

/-- Fixture: a MeshAndBsp section truncated in the middle of a filler
chunk, before any 0xB060 terminator. -/
def sec_mesh_trunc : section_data :=
  mk_section "MeshAndBsp" "" { data := [0, 0, 9, 4, 0, 0, 0, 0, 1, 0], pos := 0 }

/-- Fixture: a well-formed MeshAndBsp payload — Gen2 tag, declared size 3,
one filler chunk (tag 1, one payload byte), the terminator chunk with one
payload byte, then two trailing bytes for the tree decoder. -/
def sec_mesh_full : section_data :=
  mk_section "MeshAndBsp" ""
    { data := u32le 0x4090000 ++ u32le 3 ++
        (encode_chunks [(1, [0])] ++ (encode_chunk 0xB060 [5] ++ [9, 9])),
      pos := 0 }

/-! ## Helper lemmas about the byte cursor and the wire encodings -/

lemma getD_append_add (pre l : List Nat) (i : Nat) :
    (pre ++ l).getD (pre.length + i) 0 = l.getD i 0 := by
  induction pre with
  | nil => simp
  | cons a pre ih =>
    have : a :: pre ++ l = a :: (pre ++ l) := rfl
    rw [this]
    have hidx : (a :: pre).length + i = (pre.length + i) + 1 := by
      simp [List.length_cons]; omega
    rw [hidx, List.getD_cons_succ, ih]

lemma u16le_length (t : Nat) : (u16le t).length = 2 := rfl

lemma u32le_length (n : Nat) : (u32le n).length = 4 := rfl

lemma encode_chunk_length (t : Nat) (pl : List Nat) :
    (encode_chunk t pl).length = 6 + pl.length := by
  simp [encode_chunk, u16le, u32le]; omega

lemma encode_chunks_length_ge (cs : List (Nat × List Nat)) :
    cs.length ≤ (encode_chunks cs).length := by
  induction cs with
  | nil => simp [encode_chunks]
  | cons c cs ih =>
    simp only [encode_chunks, List.length_append, List.length_cons, encode_chunk_length]
    omega

lemma get_ushort_of_shape (b : buffer) (pre post : List Nat) (t : Nat)
    (hdata : b.data = pre ++ (u16le t ++ post)) (hpos : b.pos = pre.length) :
    b.get_ushort = .ok (t % 65536, { b with pos := b.pos + 2 }) := by
  have h0 : (pre ++ (u16le t ++ post)).getD (pre.length + 0) 0 = t % 256 := by
    rw [getD_append_add]; simp [u16le]
  have h1 : (pre ++ (u16le t ++ post)).getD (pre.length + 1) 0 = t / 256 % 256 := by
    rw [getD_append_add]; simp [u16le]
  have hlen : (pre ++ (u16le t ++ post)).length = pre.length + (2 + post.length) := by
    simp [u16le]; omega
  simp only [Nat.add_zero] at h0
  simp only [buffer.get_ushort, buffer.byte_at, hdata, hpos, hlen, h0, h1]
  rw [if_pos (by omega)]
  have hv : t % 256 + 256 * (t / 256 % 256) = t % 65536 := by omega
  rw [hv]

lemma get_uint_of_shape (b : buffer) (pre post : List Nat) (n : Nat)
    (hdata : b.data = pre ++ (u32le n ++ post)) (hpos : b.pos = pre.length) :
    b.get_uint = .ok (n % 4294967296, { b with pos := b.pos + 4 }) := by
  have h0 : (pre ++ (u32le n ++ post)).getD (pre.length + 0) 0 = n % 256 := by
    rw [getD_append_add]; simp [u32le]
  have h1 : (pre ++ (u32le n ++ post)).getD (pre.length + 1) 0 = n / 256 % 256 := by
    rw [getD_append_add]; simp [u32le]
  have h2 : (pre ++ (u32le n ++ post)).getD (pre.length + 2) 0 = n / 65536 % 256 := by
    rw [getD_append_add]; simp [u32le]
  have h3 : (pre ++ (u32le n ++ post)).getD (pre.length + 3) 0 = n / 16777216 % 256 := by
    rw [getD_append_add]; simp [u32le]
  have hlen : (pre ++ (u32le n ++ post)).length = pre.length + (4 + post.length) := by
    simp [u32le]; omega
  simp only [Nat.add_zero] at h0
  simp only [buffer.get_uint, buffer.byte_at, hdata, hpos, hlen, h0, h1, h2, h3]
  rw [if_pos (by omega)]
  have hv : n % 256 + 256 * (n / 256 % 256) + 65536 * (n / 65536 % 256) +
      16777216 * (n / 16777216 % 256) = n % 4294967296 := by omega
  rw [hv]

lemma skip_of_shape (b : buffer) (pre mid post : List Nat)
    (hdata : b.data = pre ++ (mid ++ post)) (hpos : b.pos = pre.length) :
    b.skip mid.length = .ok { b with pos := b.pos + mid.length } := by
  simp only [buffer.skip, hdata, hpos, List.length_append]
  rw [if_pos (by omega)]

lemma get_ushort_ok {b b' : buffer} {v : Nat}
    (h : b.get_ushort = .ok (v, b')) :
    b'.data = b.data ∧ b'.pos = b.pos + 2 ∧ b.pos + 2 ≤ b.data.length := by
  unfold buffer.get_ushort at h
  split at h
  · injection h with h'
    injection h' with h1 h2
    subst h2
    exact ⟨rfl, rfl, by assumption⟩
  · exact absurd h (by simp)

lemma get_uint_ok {b b' : buffer} {v : Nat}
    (h : b.get_uint = .ok (v, b')) :
    b'.data = b.data ∧ b'.pos = b.pos + 4 ∧ b.pos + 4 ≤ b.data.length := by
  unfold buffer.get_uint at h
  split at h
  · injection h with h'
    injection h' with h1 h2
    subst h2
    exact ⟨rfl, rfl, by assumption⟩
  · exact absurd h (by simp)

lemma skip_ok {b b' : buffer} {n : Nat}
    (h : b.skip n = .ok b') :
    b'.data = b.data ∧ b'.pos = b.pos + n ∧ b.pos + n ≤ b.data.length := by
  unfold buffer.skip at h
  split at h
  · injection h with h'
    subst h'
    exact ⟨rfl, rfl, by assumption⟩
  · exact absurd h (by simp)

/-- The fuel given to `skip_chunks_fuel` is irrelevant as soon as it
exceeds the number of remaining bytes: every loop iteration consumes at
least six bytes, so `remaining + 1` fuel can never be exhausted and the
fuelled loop is exactly the unbounded do-while of the source. -/
lemma skip_chunks_fuel_congr :
    ∀ (f1 f2 : Nat) (b : buffer), b.remaining < f1 → b.remaining < f2 →
      skip_chunks_fuel f1 b = skip_chunks_fuel f2 b := by
  intro f1
  induction f1 with
  | zero => intro f2 b h1 _; omega
  | succ f ih =>
    intro f2 b h1 h2
    match f2, h2 with
    | g + 1, h2 =>
    simp only [skip_chunks_fuel]
    obtain ⟨r1, hu⟩ : ∃ r, b.get_ushort = r := ⟨_, rfl⟩
    rw [hu]
    cases r1 with
    | error e => rfl
    | ok pb =>
      obtain ⟨tag, b1⟩ := pb
      obtain ⟨hd1, hp1, hb1⟩ := get_ushort_ok hu
      dsimp only
      obtain ⟨r2, hv⟩ : ∃ r, b1.get_uint = r := ⟨_, rfl⟩
      rw [hv]
      cases r2 with
      | error e => rfl
      | ok pb2 =>
        obtain ⟨len, b2⟩ := pb2
        obtain ⟨hd2, hp2, hb2⟩ := get_uint_ok hv
        dsimp only
        obtain ⟨r3, hs⟩ : ∃ r, b2.skip len = r := ⟨_, rfl⟩
        rw [hs]
        cases r3 with
        | error e => rfl
        | ok b3 =>
          obtain ⟨hd3, hp3, hb3⟩ := skip_ok hs
          dsimp only
          by_cases htag : tag = 0xB060
          · rw [if_pos htag, if_pos htag]
          · rw [if_neg htag, if_neg htag]
            apply ih
            · unfold buffer.remaining at h1 ⊢
              rw [hd2, hd1] at hb3
              rw [hp2, hp1] at hb3
              rw [hd3, hd2, hd1, hp3, hp2, hp1]
              omega
            · unfold buffer.remaining at h2 ⊢
              rw [hd2, hd1] at hb3
              rw [hp2, hp1] at hb3
              rw [hd3, hd2, hd1, hp3, hp2, hp1]
              omega

lemma get_ushort_lit (d pre post : List Nat) (t pos : Nat)
    (hdata : d = pre ++ (u16le t ++ post)) (hpos : pos = pre.length) :
    buffer.get_ushort ⟨d, pos⟩ = .ok (t % 65536, ⟨d, pos + 2⟩) := by
  have h := get_ushort_of_shape ⟨d, pos⟩ pre post t hdata hpos
  simpa using h

lemma get_uint_lit (d pre post : List Nat) (n pos : Nat)
    (hdata : d = pre ++ (u32le n ++ post)) (hpos : pos = pre.length) :
    buffer.get_uint ⟨d, pos⟩ = .ok (n % 4294967296, ⟨d, pos + 4⟩) := by
  have h := get_uint_of_shape ⟨d, pos⟩ pre post n hdata hpos
  simpa using h

lemma skip_lit (d pre mid post : List Nat) (pos : Nat)
    (hdata : d = pre ++ (mid ++ post)) (hpos : pos = pre.length) :
    buffer.skip ⟨d, pos⟩ mid.length = .ok ⟨d, pos + mid.length⟩ := by
  have h := skip_of_shape ⟨d, pos⟩ pre mid post hdata hpos
  simpa using h

/-- Running the filler-chunk skip loop over a wire-encoded sequence of
non-terminator chunks followed by a terminator chunk lands exactly on the
first byte after the terminator chunk's payload. -/
lemma skip_chunks_fuel_encode :
    ∀ (cs : List (Nat × List Nat)) (fuel : Nat) (d pre p rest : List Nat) (pos : Nat),
      d = pre ++ (encode_chunks cs ++ (encode_chunk 0xB060 p ++ rest)) →
      pos = pre.length →
      cs.length < fuel →
      (∀ c ∈ cs, c.1 < 65536 ∧ c.1 ≠ 0xB060 ∧ c.2.length < 4294967296) →
      p.length < 4294967296 →
      skip_chunks_fuel fuel ⟨d, pos⟩ =
        .ok ⟨d, pos + ((encode_chunks cs).length + (encode_chunk 0xB060 p).length)⟩ := by
  intro cs
  induction cs with
  | nil =>
    intro fuel d pre p rest pos hdata hpos hfuel _ hp
    match fuel, hfuel with
    | f + 1, _ =>
    simp only [encode_chunks, List.nil_append, List.length_nil, Nat.zero_add] at hdata ⊢
    have hdata1 : d = pre ++ (u16le 0xB060 ++ (u32le p.length ++ (p ++ rest))) := by
      rw [hdata]; simp [encode_chunk, List.append_assoc]
    simp only [skip_chunks_fuel]
    rw [get_ushort_lit d pre (u32le p.length ++ (p ++ rest)) 0xB060 pos hdata1 hpos]
    have ht : (0xB060 % 65536 : Nat) = 0xB060 := by norm_num
    rw [ht]
    dsimp only
    have hdata2 : d = (pre ++ u16le 0xB060) ++ (u32le p.length ++ (p ++ rest)) := by
      rw [hdata1]; simp [List.append_assoc]
    have hpos2 : pos + 2 = (pre ++ u16le 0xB060).length := by
      simp only [List.length_append, u16le_length, hpos]
    rw [get_uint_lit d (pre ++ u16le 0xB060) (p ++ rest) p.length (pos + 2) hdata2 hpos2]
    rw [Nat.mod_eq_of_lt hp]
    dsimp only
    have hdata3 : d = ((pre ++ u16le 0xB060) ++ u32le p.length) ++ (p ++ rest) := by
      rw [hdata2]; simp [List.append_assoc]
    have hpos3 : pos + 2 + 4 = ((pre ++ u16le 0xB060) ++ u32le p.length).length := by
      simp only [List.length_append, u16le_length, u32le_length, hpos]
    rw [skip_lit d ((pre ++ u16le 0xB060) ++ u32le p.length) p rest (pos + 2 + 4)
          hdata3 hpos3]
    dsimp only
    rw [if_pos rfl]
    have hfin : pos + 2 + 4 + p.length = pos + (encode_chunk 0xB060 p).length := by
      simp only [encode_chunk_length]; omega
    rw [hfin]
  | cons c cs ih =>
    intro fuel d pre p rest pos hdata hpos hfuel hcs hp
    match fuel, hfuel with
    | f + 1, hf =>
    have hfuel' : cs.length < f := by
      simp only [List.length_cons] at hf; omega
    obtain ⟨htag_lt, htag_ne, hlen_lt⟩ := hcs c (by simp)
    have hcs' : ∀ c' ∈ cs, c'.1 < 65536 ∧ c'.1 ≠ 0xB060 ∧ c'.2.length < 4294967296 :=
      fun c' hc' => hcs c' (by simp [hc'])
    simp only [encode_chunks] at hdata ⊢
    have hdata1 : d =
        pre ++ (u16le c.1 ++ (u32le c.2.length ++
          (c.2 ++ (encode_chunks cs ++ (encode_chunk 0xB060 p ++ rest))))) := by
      rw [hdata]; simp [encode_chunk, List.append_assoc]
    simp only [skip_chunks_fuel]
    rw [get_ushort_lit d pre _ c.1 pos hdata1 hpos]
    rw [Nat.mod_eq_of_lt htag_lt]
    dsimp only
    have hdata2 : d = (pre ++ u16le c.1) ++ (u32le c.2.length ++
        (c.2 ++ (encode_chunks cs ++ (encode_chunk 0xB060 p ++ rest)))) := by
      rw [hdata1]; simp [List.append_assoc]
    have hpos2 : pos + 2 = (pre ++ u16le c.1).length := by
      simp only [List.length_append, u16le_length, hpos]
    rw [get_uint_lit d (pre ++ u16le c.1) _ c.2.length (pos + 2) hdata2 hpos2]
    rw [Nat.mod_eq_of_lt hlen_lt]
    dsimp only
    have hdata3 : d = ((pre ++ u16le c.1) ++ u32le c.2.length) ++
        (c.2 ++ (encode_chunks cs ++ (encode_chunk 0xB060 p ++ rest))) := by
      rw [hdata2]; simp [List.append_assoc]
    have hpos3 : pos + 2 + 4 = ((pre ++ u16le c.1) ++ u32le c.2.length).length := by
      simp only [List.length_append, u16le_length, u32le_length, hpos]
    rw [skip_lit d ((pre ++ u16le c.1) ++ u32le c.2.length) c.2
          (encode_chunks cs ++ (encode_chunk 0xB060 p ++ rest)) (pos + 2 + 4)
          hdata3 hpos3]
    dsimp only
    rw [if_neg htag_ne]
    have hdata4 : d = (pre ++ encode_chunk c.1 c.2) ++
        (encode_chunks cs ++ (encode_chunk 0xB060 p ++ rest)) := by
      rw [hdata]; simp [encode_chunk, List.append_assoc]
    have hpos4 : pos + 2 + 4 + c.2.length = (pre ++ encode_chunk c.1 c.2).length := by
      simp only [List.length_append, encode_chunk_length, hpos]; omega
    rw [ih f d (pre ++ encode_chunk c.1 c.2) p rest (pos + 2 + 4 + c.2.length)
          hdata4 hpos4 hfuel' hcs' hp]
    have hfin : pos + 2 + 4 + c.2.length +
        ((encode_chunks cs).length + (encode_chunk 0xB060 p).length) =
        pos + ((encode_chunk c.1 c.2 ++ encode_chunks cs).length +
          (encode_chunk 0xB060 p).length) := by
      simp only [List.length_append, encode_chunk_length]; omega
    rw [hfin]

/-- `skip_chunks` over a wire-encoded filler-chunk sequence: the available
`remaining + 1` fuel always suffices, so the loop stops exactly after the
terminator chunk. -/
lemma skip_chunks_encode (d pre p rest : List Nat) (pos : Nat)
    (cs : List (Nat × List Nat))
    (hdata : d = pre ++ (encode_chunks cs ++ (encode_chunk 0xB060 p ++ rest)))
    (hpos : pos = pre.length)
    (hcs : ∀ c ∈ cs, c.1 < 65536 ∧ c.1 ≠ 0xB060 ∧ c.2.length < 4294967296)
    (hp : p.length < 4294967296) :
    skip_chunks ⟨d, pos⟩ =
      .ok ⟨d, pos + ((encode_chunks cs).length + (encode_chunk 0xB060 p).length)⟩ := by
  unfold skip_chunks
  apply skip_chunks_fuel_encode cs _ d pre p rest pos hdata hpos _ hcs hp
  have h1 := encode_chunks_length_ge cs
  have h2 : buffer.remaining ⟨d, pos⟩ = (encode_chunks cs).length +
      ((encode_chunk 0xB060 p).length + rest.length) := by
    unfold buffer.remaining
    rw [hdata, hpos]
    simp
  omega

/-! ## Helper lemmas about the resolver and the section loop -/

lemma determine_go_not_found (l : List section_data)
    (h : ∀ s ∈ l, s.header.object_name ≠ "MeshAndBsp") :
    determine_go l =
      (.ok .gothic_1,
       [.loge "world: failed to determine world version. Assuming Gothic 1."]) := by
  induction l with
  | nil => rfl
  | cons sec rest ih =>
    have hname := h sec (by simp)
    simp only [determine_go, if_neg hname]
    exact ih (fun s hs => h s (by simp [hs]))

lemma determine_go_found (pre : List section_data) (sec : section_data)
    (rest : List section_data) (v : Nat) (b' : buffer)
    (hpre : ∀ s ∈ pre, s.header.object_name ≠ "MeshAndBsp")
    (hname : sec.header.object_name = "MeshAndBsp")
    (hread : sec.payload.get_uint = .ok (v, b')) :
    (determine_go (pre ++ sec :: rest)).1 =
      .ok (if v = BSP_VERSION_G2 then game_version.gothic_2 else game_version.gothic_1) := by
  induction pre with
  | nil =>
    simp only [List.nil_append, determine_go, hname, if_pos, hread]
    by_cases hv : v = BSP_VERSION_G2
    · simp [hv]
    · simp [hv]
  | cons s pre ih =>
    have hs := hpre s (by simp)
    simp only [List.cons_append, determine_go, if_neg hs]
    exact ih (fun s' hs' => hpre s' (by simp [hs']))

lemma vob_go_spec (dec : Nat → Except buffer_error (Option vob)) (r : Nat → Option vob) :
    ∀ (n i : Nat), (∀ j, j < n → dec (i + j) = .ok (r (i + j))) →
      vob_go dec i n = .ok ((List.range' i n).filterMap r) := by
  intro n
  induction n with
  | zero =>
    intro i _
    simp [vob_go]
  | succ n ih =>
    intro i h
    have h0 : dec i = .ok (r i) := by
      have := h 0 (by omega)
      simpa using this
    have hrec := ih (i + 1) (fun j hj => by
      have hj1 := h (j + 1) (by omega)
      rw [show i + (j + 1) = i + 1 + j by omega] at hj1
      exact hj1)
    cases hri : r i with
    | none =>
      rw [hri] at h0
      simp only [vob_go, h0]
      rw [hrec]
      rw [List.range'_succ]
      simp [hri]
    | some c =>
      rw [hri] at h0
      simp only [vob_go, h0]
      rw [hrec]
      rw [List.range'_succ]
      simp [hri]

lemma dispatch_section_not_mesh (ext : externals) (version : game_version)
    (wld : world) (sec : section_data) (w : world)
    (hname : sec.header.object_name ≠ "MeshAndBsp")
    (h : dispatch_section ext version wld sec = .ok w) :
    w.world_mesh = wld.world_mesh ∧ w.world_bsp_tree = wld.world_bsp_tree := by
  unfold dispatch_section at h
  rw [if_neg hname] at h
  by_cases h2 : sec.header.object_name = "VobTree"
  · rw [if_pos h2] at h
    obtain ⟨rr, hrr⟩ : ∃ r, vector_reserve (size_t_of_int32 sec.read_int_val) = r :=
      ⟨_, rfl⟩
    rw [hrr] at h
    cases rr with
    | error e => simp at h
    | ok u =>
      dsimp only at h
      obtain ⟨r, hr⟩ : ∃ r, vob_go (sec.vob_decoder version) 0 sec.read_int_val.toNat = r :=
        ⟨_, rfl⟩
      rw [hr] at h
      cases r with
      | error e => simp at h
      | ok children =>
        dsimp only at h
        have hw := Except.ok.inj h
        subst hw
        exact ⟨rfl, rfl⟩
  · rw [if_neg h2] at h
    by_cases h3 : sec.header.object_name = "WayNet"
    · rw [if_pos h3] at h
      obtain ⟨r, hr⟩ : ∃ r, sec.way_net_result = r := ⟨_, rfl⟩
      rw [hr] at h
      cases r with
      | error e => simp at h
      | ok wn =>
        dsimp only at h
        have hw := Except.ok.inj h
        subst hw
        exact ⟨rfl, rfl⟩
    · rw [if_neg h3] at h
      have hw := Except.ok.inj h
      subst hw
      exact ⟨rfl, rfl⟩

lemma dispatch_section_mesh_sets (ext : externals) (version : game_version)
    (wld : world) (sec : section_data) (w : world)
    (hname : sec.header.object_name = "MeshAndBsp")
    (h : dispatch_section ext version wld sec = .ok w) :
    w.world_mesh.isSome ∧ w.world_bsp_tree.isSome := by
  unfold dispatch_section at h
  rw [if_pos hname] at h
  obtain ⟨r1, hr1⟩ : ∃ r, sec.payload.get_uint = r := ⟨_, rfl⟩
  rw [hr1] at h
  cases r1 with
  | error e => simp at h
  | ok p1 =>
    obtain ⟨bv, b1⟩ := p1
    dsimp only at h
    obtain ⟨r2, hr2⟩ : ∃ r, b1.get_uint = r := ⟨_, rfl⟩
    rw [hr2] at h
    cases r2 with
    | error e => simp at h
    | ok p2 =>
      obtain ⟨sz, b2⟩ := p2
      dsimp only at h
      obtain ⟨r3, hr3⟩ : ∃ r, skip_chunks b2 = r := ⟨_, rfl⟩
      rw [hr3] at h
      cases r3 with
      | error e => simp at h
      | ok b3 =>
        dsimp only at h
        obtain ⟨r4, hr4⟩ : ∃ r, ext.bsp_tree_parse b3 bv = r := ⟨_, rfl⟩
        rw [hr4] at h
        cases r4 with
        | error e => simp at h
        | ok tree =>
          dsimp only at h
          obtain ⟨r5, hr5⟩ : ∃ r, ext.mesh_parse b2.slice tree.leaf_polygons = r :=
            ⟨_, rfl⟩
          rw [hr5] at h
          cases r5 with
          | error e => simp at h
          | ok m =>
            dsimp only at h
            have hw := Except.ok.inj h
            subst hw
            exact ⟨rfl, rfl⟩

lemma dispatch_section_inv (ext : externals) (version : game_version)
    (wld : world) (sec : section_data) (w : world)
    (hinv : wld.world_mesh.isSome ↔ wld.world_bsp_tree.isSome)
    (h : dispatch_section ext version wld sec = .ok w) :
    w.world_mesh.isSome ↔ w.world_bsp_tree.isSome := by
  by_cases hname : sec.header.object_name = "MeshAndBsp"
  · obtain ⟨h1, h2⟩ := dispatch_section_mesh_sets ext version wld sec w hname h
    simp [h1, h2]
  · obtain ⟨h1, h2⟩ := dispatch_section_not_mesh ext version wld sec w hname h
    rw [h1, h2]
    exact hinv

lemma process_section_of_dispatch_ok (ext : externals) (version : game_version)
    (wld : world) (sec : section_data) (w : world)
    (h : dispatch_section ext version wld sec = .ok w) :
    process_section ext version wld sec =
      (.ok w,
        if sec.fully_parsed then
          [.logi ("world: parsing object [" ++ header_string sec.header ++ "]")]
        else
          [.logi ("world: parsing object [" ++ header_string sec.header ++ "]"),
           .logw ("world: object [" ++ header_string sec.header ++ "] not fully parsed")]) := by
  unfold process_section
  rw [h]
  dsimp only
  by_cases hf : sec.fully_parsed
  · rw [if_pos hf, if_pos hf]
  · rw [if_neg hf, if_neg hf]

lemma process_section_of_dispatch_error (ext : externals) (version : game_version)
    (wld : world) (sec : section_data) (e : phoenix_error)
    (h : dispatch_section ext version wld sec = .error e) :
    process_section ext version wld sec =
      (.error e,
        [.logi ("world: parsing object [" ++ header_string sec.header ++ "]")]) := by
  unfold process_section
  rw [h]

lemma process_section_ok_inv (ext : externals) (version : game_version)
    (wld : world) (sec : section_data) (w : world) (log : List log_entry)
    (h : process_section ext version wld sec = (.ok w, log)) :
    dispatch_section ext version wld sec = .ok w := by
  unfold process_section at h
  obtain ⟨r, hr⟩ : ∃ r, dispatch_section ext version wld sec = r := ⟨_, rfl⟩
  rw [hr] at h
  cases r with
  | error e => simp at h
  | ok w' =>
    dsimp only at h
    by_cases hf : sec.fully_parsed
    · rw [if_pos hf] at h
      simp only [Prod.mk.injEq, Except.ok.injEq] at h
      obtain ⟨h1, _⟩ := h
      rw [hr, h1]
    · rw [if_neg hf] at h
      simp only [Prod.mk.injEq, Except.ok.injEq] at h
      obtain ⟨h1, _⟩ := h
      rw [hr, h1]

lemma process_sections_mesh_iff (ext : externals) (version : game_version) :
    ∀ (l : List section_data) (wld w : world) (log : List log_entry),
      (wld.world_mesh.isSome ↔ wld.world_bsp_tree.isSome) →
      process_sections ext version wld l = (.ok w, log) →
      (w.world_mesh.isSome ↔ w.world_bsp_tree.isSome) := by
  intro l
  induction l with
  | nil =>
    intro wld w log hinv h
    simp only [process_sections, Prod.mk.injEq, Except.ok.injEq] at h
    obtain ⟨h1, _⟩ := h
    subst h1
    exact hinv
  | cons sec rest ih =>
    intro wld w log hinv h
    simp only [process_sections] at h
    obtain ⟨res, hres⟩ : ∃ r, process_section ext version wld sec = r := ⟨_, rfl⟩
    rw [hres] at h
    obtain ⟨r1, lg⟩ := res
    cases r1 with
    | error e => simp at h
    | ok w1 =>
      dsimp only at h
      obtain ⟨res2, hres2⟩ : ∃ r, process_sections ext version w1 rest = r := ⟨_, rfl⟩
      rw [hres2] at h
      obtain ⟨r2, lg2⟩ := res2
      dsimp only at h
      simp only [Prod.mk.injEq] at h
      obtain ⟨h1, _⟩ := h
      subst h1
      have hd := process_section_ok_inv ext version wld sec w1 lg hres
      exact ih w1 w lg2 (dispatch_section_inv ext version wld sec w1 hinv hd) hres2

lemma determine_go_error (l : List section_data) (e : buffer_error)
    (h : (determine_go l).1 = .error e) :
    ∃ pre sec rest, l = pre ++ sec :: rest ∧
      sec.header.object_name = "MeshAndBsp" ∧ sec.payload.get_uint = .error e := by
  induction l with
  | nil => simp [determine_go] at h
  | cons sec rest ih =>
    by_cases hname : sec.header.object_name = "MeshAndBsp"
    · simp only [determine_go, if_pos hname] at h
      obtain ⟨r, hr⟩ : ∃ r, sec.payload.get_uint = r := ⟨_, rfl⟩
      rw [hr] at h
      cases r with
      | error e' =>
        dsimp only at h
        have he := Except.error.inj h
        subst he
        exact ⟨[], sec, rest, rfl, hname, hr⟩
      | ok p =>
        obtain ⟨v, b'⟩ := p
        dsimp only at h
        by_cases hv : v = BSP_VERSION_G2
        · rw [if_pos hv] at h; simp at h
        · rw [if_neg hv] at h; simp at h
    · simp only [determine_go, if_neg hname] at h
      obtain ⟨pre, s, r, h1, h2, h3⟩ := ih h
      exact ⟨sec :: pre, s, r, by rw [h1]; rfl, h2, h3⟩

/-- A nonnegative 32-bit count converts to itself and is always within the
vector's size bound, so `reserve` succeeds. -/
lemma vector_reserve_int32_nonneg (n : Int) (h0 : 0 ≤ n) (h1 : n < 2 ^ 31) :
    vector_reserve (size_t_of_int32 n) = .ok () := by
  unfold vector_reserve size_t_of_int32 VECTOR_MAX_SIZE
  rw [if_pos (by omega)]

/-- A negative 32-bit count converts to a value close to 2^64, which
exceeds every conforming `max_size`, so `reserve` throws `length_error`. -/
lemma vector_reserve_int32_neg (n : Int) (h0 : n < 0) (h1 : -(2 ^ 31) ≤ n) :
    vector_reserve (size_t_of_int32 n) = .error .length_error := by
  unfold vector_reserve size_t_of_int32 VECTOR_MAX_SIZE
  rw [if_neg (by omega)]

/-! ## Claim theorems -/

/-- C1: `determine_world_version` returns Gothic 2 exactly when the 32-bit
unsigned little-endian integer read at the cursor position inside the
first "MeshAndBsp" section equals the Gen2 magic 0x4090000, returns
Gothic 1 for any other value, and defaults to Gothic 1 when no
"MeshAndBsp" section is found before the archive is exhausted. -/
theorem determine_world_version_spec (arc : world_archive) :
    (∀ pre sec rest, arc.sections = pre ++ sec :: rest →
        (∀ s ∈ pre, s.header.object_name ≠ "MeshAndBsp") →
        sec.header.object_name = "MeshAndBsp" →
        ∀ v b', sec.payload.get_uint = .ok (v, b') →
          (determine_world_version arc).1 =
            .ok (if v = 0x4090000 then game_version.gothic_2 else game_version.gothic_1)) ∧
    ((∀ s ∈ arc.sections, s.header.object_name ≠ "MeshAndBsp") →
        (determine_world_version arc).1 = .ok game_version.gothic_1) := by
  constructor
  · intro pre sec rest hsecs hpre hname v b' hread
    unfold determine_world_version
    rw [hsecs]
    exact determine_go_found pre sec rest v b' hpre hname hread
  · intro h
    unfold determine_world_version
    rw [determine_go_not_found arc.sections h]

/-- Witness for C1: a Gen2-tagged geometry section resolves to Gothic 2;
an archive without the marker section resolves to the Gothic 1 default. -/
theorem determine_world_version_spec_witness :
    (determine_world_version arc_g2).1 = .ok game_version.gothic_2 ∧
    (determine_world_version arc_no_mesh).1 = .ok game_version.gothic_1 := by
  constructor
  · have h := (determine_world_version_spec arc_g2).1 [sec_foo] sec_mesh_g2 []
      rfl
      (by intro s hs; simp only [List.mem_singleton] at hs; subst hs; decide)
      rfl 0x4090000 { data := u32le 0x4090000, pos := 4 } rfl
    simpa using h
  · exact (determine_world_version_spec arc_no_mesh).2
      (by intro s hs
          simp only [arc_no_mesh, List.mem_singleton] at hs
          subst hs; decide)

/-- C2: when the root object's declared type is not exactly
"oCWorld:zCWorld", `world::parse` fails with a format-mismatch
`parser_error` whose "world"-tagged message names both the expected and
the observed type strings, with no diagnostics emitted and no section
dispatch: the outcome is independent of the archive's sections and of the
external decoders. -/
theorem parse_root_class_mismatch (ext : externals) (arc : world_archive)
    (version : game_version) (h : arc.root.class_name ≠ "oCWorld:zCWorld") :
    world.parse_with ext arc version =
      (.error (.parser (.plain "world"
         ("'oCWorld:zCWorld' chunk expected, got '" ++ arc.root.class_name ++ "'"))), []) ∧
    ∀ (ext2 : externals) (secs2 : List section_data),
      world.parse_with ext2 { arc with sections := secs2 } version =
        world.parse_with ext arc version := by
  constructor
  · unfold world.parse_with
    rw [if_neg h]
  · intro ext2 secs2
    unfold world.parse_with
    rw [if_neg h]
    rw [if_neg (show ¬ ({ arc with sections := secs2 } :
          world_archive).root.class_name = "oCWorld:zCWorld" from h)]

/-- Witness for C2: a root declaring "oCWorld:zCWorldFoo" fails with the
format-mismatch error naming both strings. -/
theorem parse_root_class_mismatch_witness :
    world.parse_with ext0 arc_bad_root game_version.gothic_1 =
      (.error (.parser (.plain "world"
         ("'oCWorld:zCWorld' chunk expected, got '" ++
            arc_bad_root.root.class_name ++ "'"))), []) :=
  (parse_root_class_mismatch ext0 arc_bad_root game_version.gothic_1 (by decide)).1

/-- C7: the one-argument entry point resolves the generation on an
independent duplicate of the region — a value identical to the original —
and then the assembler pass runs on the pristine original region with the
resolved generation. -/
theorem parse_resolver_probe (ext : externals) (arc : world_archive) :
    arc.duplicate = arc ∧
    ∀ version log, determine_world_version arc.duplicate = (.ok version, log) →
      (world.parse ext arc).1 = (world.parse_with ext arc version).1 ∧
      (world.parse ext arc).2 = log ++ (world.parse_with ext arc version).2 := by
  refine ⟨rfl, ?_⟩
  intro version log h
  unfold world.parse
  rw [h]
  dsimp only
  obtain ⟨rp, hrp⟩ : ∃ r, world.parse_with ext arc version = r := ⟨_, rfl⟩
  obtain ⟨r1, l2⟩ := rp
  rw [hrp]
  exact ⟨rfl, rfl⟩

/-- Witness for C7: on an archive with no sections the resolver yields the
Gothic 1 default and the entry point's result is the assembler's result on
the untouched original. -/
theorem parse_resolver_probe_witness :
    (world.parse ext0 arc_empty).1 =
      (world.parse_with ext0 arc_empty game_version.gothic_1).1 ∧
    (world.parse ext0 arc_empty).2 =
      [.loge "world: failed to determine world version. Assuming Gothic 1."] ++
        (world.parse_with ext0 arc_empty game_version.gothic_1).2 :=
  (parse_resolver_probe ext0 arc_empty).2 game_version.gothic_1
    [.loge "world: failed to determine world version. Assuming Gothic 1."] rfl

/-- C8 counterexample: on an archive whose MeshAndBsp section begins at
the end of the byte region, `determine_world_version` raises the cursor's
out-of-bounds error instead of returning a generation, so the resolver is
not error-free on malformed archives. -/
theorem determine_world_version_can_raise :
    (determine_world_version arc_trunc_mesh).1 = .error buffer_error.underflow := rfl

/-- C8 amended: the resolver returns the Gothic 1 default, error-free, on
every archive that lacks a MeshAndBsp marker section; but when a marker
section is present and the four-byte tag read at its cursor position runs
out of bounds, that cursor error propagates out of the resolver. -/
theorem determine_world_version_amended (arc : world_archive) :
    ((∀ s ∈ arc.sections, s.header.object_name ≠ "MeshAndBsp") →
        (determine_world_version arc).1 = .ok game_version.gothic_1) ∧
    (∀ e, (determine_world_version arc).1 = .error e →
        ∃ pre sec rest, arc.sections = pre ++ sec :: rest ∧
          sec.header.object_name = "MeshAndBsp" ∧
          sec.payload.get_uint = .error e) := by
  constructor
  · intro h
    unfold determine_world_version
    rw [determine_go_not_found arc.sections h]
  · intro e h
    exact determine_go_error arc.sections e h

/-- Witness for C8's amended statement: an archive without the marker
resolves to the Gothic 1 default. -/
theorem determine_world_version_amended_witness :
    (determine_world_version arc_no_mesh).1 = .ok game_version.gothic_1 :=
  (determine_world_version_amended arc_no_mesh).1
    (by intro s hs
        simp only [arc_no_mesh, List.mem_singleton] at hs
        subst hs; decide)

/-- C10 counterexample: with a VobTree section declaring count -5 the
parse aborts with `length_error` — the `reserve` call on the converted
negative count throws before the loop and the `buffer_error` handler does
not catch it — whereas the same archive without that section parses the
following section to completion; so the claim's "raises no error on
account of the count itself, and the parse of subsequent sections
continues normally" is false. -/
theorem vobtree_negative_count_counterexample :
    (world.parse_with ext0 { root := root_ok, sections := [sec_vob_neg, sec_foo] }
        game_version.gothic_1).1 = .error .length_error ∧
    (world.parse_with ext0 { root := root_ok, sections := [sec_foo] }
        game_version.gothic_1).1 = .ok world.empty :=
  ⟨rfl, rfl⟩

/-- C10 amended: a "VobTree" section whose signed 32-bit declared count is
negative invokes the VOB decoder zero times and appends no entry — the
outcome does not depend on the decoder oracle at all — but the vector
`reserve` on the count converted to `size_t` throws `length_error` before
the loop; that error is not caught by the `buffer_error` handler, so the
parse aborts instead of continuing with the subsequent sections. -/
theorem vobtree_negative_count (ext : externals) (version : game_version)
    (wld : world) (sec : section_data)
    (hname : sec.header.object_name = "VobTree")
    (hneg : sec.read_int_val < 0)
    (hint32 : -(2 ^ 31) ≤ sec.read_int_val) :
    (∀ d, (process_section ext version wld { sec with vob_decoder := d }).1 =
        .error .length_error) ∧
    (∀ rest, (process_sections ext version wld (sec :: rest)).1 =
        .error .length_error) ∧
    (∀ root rest, root.class_name = "oCWorld:zCWorld" →
        (world.parse_with ext { root := root, sections := sec :: rest } version).1 =
          .error .length_error) := by
  have hdisp : ∀ (w' : world) d,
      dispatch_section ext version w' { sec with vob_decoder := d } =
        .error .length_error := by
    intro w' d
    unfold dispatch_section
    rw [if_neg (show ¬ ({ sec with vob_decoder := d } :
          section_data).header.object_name = "MeshAndBsp" by
        dsimp only; rw [hname]; decide)]
    rw [if_pos (show ({ sec with vob_decoder := d } :
          section_data).header.object_name = "VobTree" from hname)]
    dsimp only
    rw [vector_reserve_int32_neg sec.read_int_val hneg hint32]
  have hps : ∀ (w' : world),
      process_section ext version w' sec =
        (.error .length_error,
         [.logi ("world: parsing object [" ++ header_string sec.header ++ "]")]) :=
    fun w' => process_section_of_dispatch_error ext version w' sec
      phoenix_error.length_error (hdisp w' sec.vob_decoder)
  refine ⟨?_, ?_, ?_⟩
  · intro d
    rw [process_section_of_dispatch_error ext version wld _
          phoenix_error.length_error (hdisp wld d)]
  · intro rest
    simp only [process_sections]
    rw [hps wld]
  · intro root rest hroot
    unfold world.parse_with
    rw [if_pos (show ({ root := root, sections := sec :: rest } :
          world_archive).root.class_name = "oCWorld:zCWorld" from hroot)]
    dsimp only
    simp only [process_sections]
    rw [hps world.empty]

/-- Witness for C10's amended statement: a VobTree section declaring count
-5 yields the uncaught `length_error` at the section, the loop and the
whole parse, independently of the decoder oracle. -/
theorem vobtree_negative_count_witness :
    (process_section ext0 game_version.gothic_1 world.empty
        { sec_vob_neg with vob_decoder := dummy_vob_decoder }).1 =
      .error .length_error ∧
    (process_sections ext0 game_version.gothic_1 world.empty [sec_vob_neg]).1 =
      .error .length_error ∧
    (world.parse_with ext0 { root := root_ok, sections := [sec_vob_neg] }
        game_version.gothic_1).1 = .error .length_error := by
  refine ⟨?_, ?_, ?_⟩
  · exact (vobtree_negative_count ext0 game_version.gothic_1 world.empty sec_vob_neg
      rfl (by decide) (by decide)).1 dummy_vob_decoder
  · exact (vobtree_negative_count ext0 game_version.gothic_1 world.empty sec_vob_neg
      rfl (by decide) (by decide)).2.1 []
  · exact (vobtree_negative_count ext0 game_version.gothic_1 world.empty sec_vob_neg
      rfl (by decide) (by decide)).2.2 root_ok [] rfl

/-- C3: in every world returned by `world::parse`, the mesh field is
populated exactly when the spatial-tree field is; the MeshAndBsp dispatch
is the only one that assigns either field and it always assigns both,
while every other section's dispatch leaves both unchanged. -/
theorem mesh_iff_spatial_tree (ext : externals) (arc : world_archive)
    (version : game_version) :
    (∀ w log, world.parse_with ext arc version = (.ok w, log) →
        (w.world_mesh.isSome ↔ w.world_bsp_tree.isSome)) ∧
    (∀ wld sec w, sec.header.object_name ≠ "MeshAndBsp" →
        dispatch_section ext version wld sec = .ok w →
        w.world_mesh = wld.world_mesh ∧ w.world_bsp_tree = wld.world_bsp_tree) ∧
    (∀ wld sec w, sec.header.object_name = "MeshAndBsp" →
        dispatch_section ext version wld sec = .ok w →
        w.world_mesh.isSome ∧ w.world_bsp_tree.isSome) := by
  refine ⟨?_, ?_, ?_⟩
  · intro w log h
    unfold world.parse_with at h
    by_cases hc : arc.root.class_name = "oCWorld:zCWorld"
    · rw [if_pos hc] at h
      obtain ⟨res, hres⟩ : ∃ r,
          process_sections ext version world.empty arc.sections = r := ⟨_, rfl⟩
      rw [hres] at h
      obtain ⟨r1, lg⟩ := res
      cases r1 with
      | error e => cases e <;> simp at h
      | ok w1 =>
        dsimp only at h
        simp only [Prod.mk.injEq, Except.ok.injEq] at h
        obtain ⟨h1, _⟩ := h
        subst h1
        exact process_sections_mesh_iff ext version arc.sections world.empty w1 lg
          (by simp [world.empty]) hres
    · rw [if_neg hc] at h
      simp at h
  · intro wld sec w hname h
    exact dispatch_section_not_mesh ext version wld sec w hname h
  · intro wld sec w hname h
    exact dispatch_section_mesh_sets ext version wld sec w hname h

/-- Witness for C3: the world assembled from a sectionless archive honors
the joint-population invariant. -/
theorem mesh_iff_spatial_tree_witness :
    world.empty.world_mesh.isSome ↔ world.empty.world_bsp_tree.isSome :=
  (mesh_iff_spatial_tree ext0 arc_empty game_version.gothic_1).1 world.empty [] rfl

/-- C4: every cursor out-of-bounds error escaping the section loop —
wherever it arose, including inside a delegated decoder — surfaces as the
single "world"-tagged "eof reached" parser error, and a geometry section
truncated before its 0xB060 terminator is such a failure: no partial
world is returned and the external decoders are never consulted. -/
theorem eof_error_wrapping (ext : externals) (arc : world_archive)
    (version : game_version) :
    (∀ e log, arc.root.class_name = "oCWorld:zCWorld" →
        process_sections ext version world.empty arc.sections = (.error (.buf e), log) →
        world.parse_with ext arc version =
          (.error (.parser (.wrap "world" e "eof reached")), log)) ∧
    (∀ root sec, root.class_name = "oCWorld:zCWorld" →
        sec.header.object_name = "MeshAndBsp" →
        sec.payload = { data := [0, 0, 9, 4, 0, 0, 0, 0, 1, 0], pos := 0 } →
        (world.parse_with ext { root := root, sections := [sec] } version).1 =
          .error (.parser (.wrap "world" buffer_error.underflow "eof reached"))) := by
  constructor
  · intro e log hc hproc
    unfold world.parse_with
    rw [if_pos hc, hproc]
  · intro root sec hroot hname hpay
    have hdisp : dispatch_section ext version world.empty sec =
        .error (.buf buffer_error.underflow) := by
      unfold dispatch_section
      rw [if_pos hname, hpay]
      rfl
    have hps := process_section_of_dispatch_error ext version world.empty sec
      (phoenix_error.buf buffer_error.underflow) hdisp
    unfold world.parse_with
    rw [if_pos (show ({ root := root, sections := [sec] } :
          world_archive).root.class_name = "oCWorld:zCWorld" from hroot)]
    dsimp only
    simp only [process_sections]
    rw [hps]

/-- Witness for C4: a geometry section whose payload ends in the middle of
the first filler chunk fails with the wrapped end-of-stream error. -/
theorem eof_error_wrapping_witness :
    (world.parse_with ext0 { root := root_ok, sections := [sec_mesh_trunc] }
        game_version.gothic_2).1 =
      .error (.parser (.wrap "world" buffer_error.underflow "eof reached")) :=
  (eof_error_wrapping ext0 { root := root_ok, sections := [sec_mesh_trunc] }
      game_version.gothic_2).2 root_ok sec_mesh_trunc rfl rfl rfl

/-- C5: a "VobTree" section declaring a nonnegative 32-bit count N whose N
decoder invocations all succeed yields exactly the non-null results,
appended in archive iteration order, and hence at most N new forest
entries (the `reserve(N)` capacity request cannot fail for such N). -/
theorem vobtree_forest (ext : externals) (version : game_version) (wld : world)
    (sec : section_data) (r : Nat → Option vob)
    (hname : sec.header.object_name = "VobTree")
    (hcount0 : 0 ≤ sec.read_int_val)
    (hcount1 : sec.read_int_val < 2 ^ 31)
    (hdec : ∀ i, i < sec.read_int_val.toNat →
        sec.vob_decoder version i = .ok (r i)) :
    (process_section ext version wld sec).1 =
      .ok { wld with world_vobs :=
              wld.world_vobs ++ (List.range sec.read_int_val.toNat).filterMap r } ∧
    ((List.range sec.read_int_val.toNat).filterMap r).length ≤
      sec.read_int_val.toNat := by
  have hloop : vob_go (sec.vob_decoder version) 0 sec.read_int_val.toNat =
      .ok ((List.range' 0 sec.read_int_val.toNat).filterMap r) := by
    apply vob_go_spec
    intro j hj
    simpa using hdec j (by simpa using hj)
  rw [← List.range_eq_range'] at hloop
  have hdisp : dispatch_section ext version wld sec =
      .ok { wld with world_vobs :=
              wld.world_vobs ++ (List.range sec.read_int_val.toNat).filterMap r } := by
    unfold dispatch_section
    rw [if_neg (by rw [hname]; decide), if_pos hname]
    rw [vector_reserve_int32_nonneg sec.read_int_val hcount0 hcount1]
    dsimp only
    rw [hloop]
  constructor
  · rw [process_section_of_dispatch_ok ext version wld sec _ hdisp]
  · calc ((List.range sec.read_int_val.toNat).filterMap r).length
        ≤ (List.range sec.read_int_val.toNat).length :=
          List.length_filterMap_le r _
      _ = sec.read_int_val.toNat := List.length_range sec.read_int_val.toNat

/-- Witness for C5: three declared children, of which the middle decode
yields no node, produce a two-entry forest in archive order. -/
theorem vobtree_forest_witness :
    (process_section ext0 game_version.gothic_1 world.empty sec_vob3).1 =
      .ok { world_bsp_tree := none, world_mesh := none,
            world_vobs := [{ vob_id := 0 }, { vob_id := 2 }],
            world_way_net := none } ∧
    ((List.range sec_vob3.read_int_val.toNat).filterMap r3).length ≤
      sec_vob3.read_int_val.toNat := by
  have h := vobtree_forest ext0 game_version.gothic_1 world.empty sec_vob3 r3 rfl
    (by decide) (by decide)
    (by intro i hi
        show vd3 game_version.gothic_1 i = .ok (r3 i)
        by_cases h1 : i = 1 <;> simp [vd3, r3, h1])
  refine ⟨?_, h.2⟩
  rw [h.1]
  rfl

/-- C6: a section whose dispatch leaves unread bytes behind is recovered:
the reported consumption state never changes the assembled value, a
not-fully-parsed section logs the recoverable diagnostic naming its full
header while a fully parsed one does not, sections outside the three
recognized names leave the world unchanged, and after a successful
dispatch the loop always proceeds to the next sibling. -/
theorem section_recovery (ext : externals) (version : game_version)
    (wld : world) (sec : section_data) :
    (∀ b, (process_section ext version wld { sec with fully_parsed := b }).1 =
            (process_section ext version wld sec).1) ∧
    (∀ w, dispatch_section ext version wld sec = .ok w →
        process_section ext version wld sec =
          (.ok w,
            if sec.fully_parsed then
              [.logi ("world: parsing object [" ++ header_string sec.header ++ "]")]
            else
              [.logi ("world: parsing object [" ++ header_string sec.header ++ "]"),
               .logw ("world: object [" ++ header_string sec.header ++
                 "] not fully parsed")])) ∧
    (sec.header.object_name ≠ "MeshAndBsp" → sec.header.object_name ≠ "VobTree" →
        sec.header.object_name ≠ "WayNet" →
        (process_section ext version wld sec).1 = .ok wld) ∧
    (∀ w rest, dispatch_section ext version wld sec = .ok w →
        (process_sections ext version wld (sec :: rest)).1 =
          (process_sections ext version w rest).1) := by
  refine ⟨?_, ?_, ?_, ?_⟩
  · intro b
    obtain ⟨rd, hrd⟩ : ∃ r, dispatch_section ext version wld sec = r := ⟨_, rfl⟩
    have hrd2 : dispatch_section ext version wld { sec with fully_parsed := b } = rd :=
      hrd
    unfold process_section
    rw [hrd2, hrd]
    cases rd with
    | error e => rfl
    | ok w =>
      dsimp only
      by_cases hb : b = true <;> by_cases hfp : sec.fully_parsed = true <;>
        simp [hb, hfp]
  · intro w h
    exact process_section_of_dispatch_ok ext version wld sec w h
  · intro h1 h2 h3
    have hd : dispatch_section ext version wld sec = .ok wld := by
      unfold dispatch_section
      rw [if_neg h1, if_neg h2, if_neg h3]
    rw [process_section_of_dispatch_ok ext version wld sec wld hd]
  · intro w rest h
    simp only [process_sections]
    rw [process_section_of_dispatch_ok ext version wld sec w h]

/-- Witness for C6: an unrecognized "Cameras" section flagged as not fully
parsed leaves the world unchanged and logs the recovery diagnostic. -/
theorem section_recovery_witness :
    (process_section ext0 game_version.gothic_1 world.empty sec_unknown).1 =
      .ok world.empty ∧
    process_section ext0 game_version.gothic_1 world.empty sec_unknown =
      (.ok world.empty,
        if sec_unknown.fully_parsed then
          [.logi ("world: parsing object [" ++ header_string sec_unknown.header ++ "]")]
        else
          [.logi ("world: parsing object [" ++ header_string sec_unknown.header ++ "]"),
           .logw ("world: object [" ++ header_string sec_unknown.header ++
             "] not fully parsed")]) := by
  constructor
  · exact (section_recovery ext0 game_version.gothic_1 world.empty sec_unknown).2.2.1
      (by decide) (by decide) (by decide)
  · exact (section_recovery ext0 game_version.gothic_1 world.empty sec_unknown).2.1
      world.empty rfl

/-- C9: the MeshAndBsp dispatch follows the exact protocol: read the
32-bit generation tag, read and discard the 32-bit declared length,
capture the open-ended mesh slice at the current position, skip 16-bit
tagged, 32-bit length-prefixed filler chunks until — and including — the
chunk tagged 0xB060, and only then invoke the spatial-tree decoder at that
position with the tag, handing its leaf-polygon list together with the
captured mesh region to the mesh decoder; both results are stored
jointly. -/
theorem mesh_and_bsp_protocol (ext : externals) (version : game_version)
    (wld : world) (sec : section_data) (cs : List (Nat × List Nat))
    (p rest : List Nat) (ver sz : Nat) (tr : bsp_tree) (m : mesh)
    (hname : sec.header.object_name = "MeshAndBsp")
    (hver : ver < 4294967296)
    (hpay : sec.payload =
      { data := u32le ver ++ (u32le sz ++
          (encode_chunks cs ++ (encode_chunk 0xB060 p ++ rest))), pos := 0 })
    (hcs : ∀ c ∈ cs, c.1 < 65536 ∧ c.1 ≠ 0xB060 ∧ c.2.length < 4294967296)
    (hp : p.length < 4294967296)
    (htree : ext.bsp_tree_parse
        { data := u32le ver ++ (u32le sz ++
            (encode_chunks cs ++ (encode_chunk 0xB060 p ++ rest))),
          pos := 8 + ((encode_chunks cs).length + (encode_chunk 0xB060 p).length) }
        ver = .ok tr)
    (hmesh : ext.mesh_parse
        { data := encode_chunks cs ++ (encode_chunk 0xB060 p ++ rest), pos := 0 }
        tr.leaf_polygons = .ok m) :
    (process_section ext version wld sec).1 =
      .ok { wld with world_bsp_tree := some tr, world_mesh := some m } := by
  have hdisp : dispatch_section ext version wld sec =
      .ok { wld with world_bsp_tree := some tr, world_mesh := some m } := by
    unfold dispatch_section
    rw [if_pos hname, hpay]
    rw [get_uint_lit
          (u32le ver ++ (u32le sz ++ (encode_chunks cs ++ (encode_chunk 0xB060 p ++ rest))))
          []
          (u32le sz ++ (encode_chunks cs ++ (encode_chunk 0xB060 p ++ rest)))
          ver 0 (by simp) rfl]
    rw [Nat.mod_eq_of_lt hver]
    dsimp only
    rw [get_uint_lit
          (u32le ver ++ (u32le sz ++ (encode_chunks cs ++ (encode_chunk 0xB060 p ++ rest))))
          (u32le ver)
          (encode_chunks cs ++ (encode_chunk 0xB060 p ++ rest))
          sz (0 + 4) rfl (by simp [u32le_length])]
    dsimp only
    rw [skip_chunks_encode
          (u32le ver ++ (u32le sz ++ (encode_chunks cs ++ (encode_chunk 0xB060 p ++ rest))))
          (u32le ver ++ u32le sz) p rest (0 + 4 + 4) cs
          (by simp [List.append_assoc]) (by simp [u32le_length]) hcs hp]
    dsimp only
    rw [show (0 + 4 + 4 : Nat) +
          ((encode_chunks cs).length + (encode_chunk 0xB060 p).length) =
          8 + ((encode_chunks cs).length + (encode_chunk 0xB060 p).length) from by omega]
    rw [htree]
    dsimp only
    have hslice : buffer.slice
        { data := u32le ver ++ (u32le sz ++
            (encode_chunks cs ++ (encode_chunk 0xB060 p ++ rest))), pos := 0 + 4 + 4 } =
        { data := encode_chunks cs ++ (encode_chunk 0xB060 p ++ rest), pos := 0 } := by
      unfold buffer.slice
      have hd : List.drop (0 + 4 + 4)
          (u32le ver ++ (u32le sz ++
            (encode_chunks cs ++ (encode_chunk 0xB060 p ++ rest)))) =
          encode_chunks cs ++ (encode_chunk 0xB060 p ++ rest) := by
        rw [show u32le ver ++ (u32le sz ++
              (encode_chunks cs ++ (encode_chunk 0xB060 p ++ rest))) =
            (u32le ver ++ u32le sz) ++
              (encode_chunks cs ++ (encode_chunk 0xB060 p ++ rest)) from by
          simp [List.append_assoc]]
        exact List.drop_left' (by simp [u32le])
      rw [hd]
    rw [hslice, hmesh]
  rw [process_section_of_dispatch_ok ext version wld sec _ hdisp]

/-- Witness for C9: a payload with one filler chunk and a one-byte
terminator payload decodes through the protocol with the fixture
decoders. -/
theorem mesh_and_bsp_protocol_witness :
    (process_section ext0 game_version.gothic_1 world.empty sec_mesh_full).1 =
      .ok { world_bsp_tree :=
              some { leaf_polygons := [7], node_data := 0x4090000 + 22 },
            world_mesh := some { mesh_id := 17 },
            world_vobs := [], world_way_net := none } := by
  have h := mesh_and_bsp_protocol ext0 game_version.gothic_1 world.empty sec_mesh_full
    [(1, [0])] [5] [9, 9] 0x4090000 3
    { leaf_polygons := [7], node_data := 0x4090000 + 22 }
    { mesh_id := 17 }
    rfl (by norm_num) rfl
    (by intro c hc
        simp only [List.mem_singleton] at hc
        subst hc
        refine ⟨by norm_num, by norm_num, by norm_num⟩)
    (by norm_num) rfl rfl
  rw [h]
  rfl

end Phoenix
